import Mathlib

/-!
Shallow embedding of the Discord bot's stateful helpers (price-history
tracker, flat HTTP caches, conversation history, odds conversion) from
`src/unnamed/part_000` and `src/bot.js`.  Timestamps and prices are modelled
as integers (milliseconds / cents); JavaScript number arithmetic inside
`Math.round` is modelled as exact rational arithmetic.
-/

namespace DiscordBot

/-- JavaScript `Math.round`: rounds half toward positive infinity,
`Math.round x = ⌊x + 1/2⌋`. -/
def jsRound (q : ℚ) : Int := ⌊q + 1/2⌋

/-- `Math.round(num / den)` for integers with `den > 0`, in executable form:
`⌊num/den + 1/2⌋ = ⌊(2*num + den) / (2*den)⌋`, and `Int./` is floor
division for a positive divisor.  `jsRoundDiv_eq_jsRound` proves it agrees
with `jsRound`. -/
def jsRoundDiv (num den : Int) : Int := (2 * num + den) / (2 * den)

/-! ## Price history tracker (`src/unnamed/part_000`, lines 137–181) -/

/-- One element of a `priceHistory` series: `{ price, timestamp, team }`
as pushed by `recordPrice`. -/
structure Sample where
  price : Int
  timestamp : Int
  team : String
deriving DecidableEq

/-- `const PRICE_HISTORY_TTL = 10 * 60 * 1000` (milliseconds). -/
def PRICE_HISTORY_TTL : Int := 10 * 60 * 1000

/-- The eviction loop of `recordPrice`:
`while (history.length > 0 && history[0].timestamp < cutoff) history.shift()`. -/
def pruneOld (cutoff : Int) : List Sample → List Sample
  | [] => []
  | s :: rest => if s.timestamp < cutoff then pruneOld cutoff rest else s :: rest

/-- `recordPrice(marketId, price, teamName)` acting on one series: pushes
`{ price, timestamp: now, team }`, then evicts from the front every entry
with `timestamp < now - PRICE_HISTORY_TTL`. -/
def recordPrice (now price : Int) (team : String) (history : List Sample) :
    List Sample :=
  pruneOld (now - PRICE_HISTORY_TTL) (history ++ [⟨price, now, team⟩])

/-- The non-null result shape of `getPriceMovement`. -/
structure Movement where
  change : Int
  minutesAgo : Int
  direction : String
  team : String
deriving DecidableEq

/-- `getPriceMovement(marketId)` acting on one series (`history[0]` is the
oldest sample, `history[history.length - 1]` the newest). -/
def getPriceMovement (history : List Sample) : Option Movement :=
  if history.length < 2 then none else
  match history.head?, history.getLast? with
  | some oldest, some current =>
    if jsRoundDiv (current.timestamp - oldest.timestamp) 60000 < 1 then none
    else if (current.price - oldest.price).natAbs < 3 then none
    else some ⟨current.price - oldest.price,
               jsRoundDiv (current.timestamp - oldest.timestamp) 60000,
               if 0 < current.price - oldest.price then "up" else "down",
               current.team⟩
  | _, _ => none

/-- The `priceHistory` map (`marketId -> [{price, timestamp, team}, ...]`),
modelled as a total function defaulting to the empty series. -/
def emptyPriceHistory : String → List Sample := fun _ => []

/-- `recordPrice` at the map level: updates only the series of `marketId`. -/
def record (ph : String → List Sample) (marketId : String) (now price : Int)
    (team : String) : String → List Sample :=
  fun k => if k = marketId then recordPrice now price team (ph k) else ph k

/-- `getPriceMovement` at the map level. -/
def movement (ph : String → List Sample) (marketId : String) : Option Movement :=
  getPriceMovement (ph marketId)

/-- A sequence of `recordPrice` calls on one series, starting from the empty
series.  Each operation is `(now, price, team)`. -/
def runRecords (ops : List (Int × Int × String)) : List Sample :=
  ops.foldl (fun h op => recordPrice op.1 op.2.1 op.2.2 h) []

/-! ## Flat HTTP caches (`src/unnamed/part_000`, lines 130–146, 275–385) -/

/-- One cache slot: `{ data, timestamp }`, with `data: null` modelled as
`none`.  The payload type is abstract. -/
structure CacheEntry (α : Type) where
  data : Option α
  timestamp : Int
deriving DecidableEq

/-- Outcome of the single HTTP GET attempt: success with a payload, or any
failure (network error, timeout, non-2xx — axios throws on all of them and
the `catch` receives it). -/
inductive FetchResult (α : Type) where
  | success (payload : α)
  | failure
deriving DecidableEq

/-- `const CACHE_TTL = 30 * 1000` (milliseconds). -/
def CACHE_TTL : Int := 30 * 1000

/-- `isCacheValid(entry)`: `entry.data && (Date.now() - entry.timestamp) < CACHE_TTL`. -/
def isCacheValid {α : Type} (now : Int) (e : CacheEntry α) : Bool :=
  e.data.isSome && decide (now - e.timestamp < CACHE_TTL)

/-- `getKalshiMarkets()` as a step function on its cache slot.  The returned
triple is (value returned to the caller, new cache slot, whether a network
call was issued).  `net` is the outcome the network would produce (the
filtered markets payload on success — the filter runs before caching, so the
cached and returned value coincide); `empty` is `[]`. -/
def getKalshiMarkets {α : Type} (now : Int) (c : CacheEntry α)
    (net : FetchResult α) (empty : α) : α × CacheEntry α × Bool :=
  if isCacheValid now c then (c.data.getD empty, c, false)
  else
    match net with
    | .success p => (p, ⟨some p, now⟩, true)
    | .failure => (c.data.getD empty, c, true)

/-- `getPolymarketEvents()` as a step function on its cache slot; identical
cache discipline to `getKalshiMarkets`. -/
def getPolymarketEvents {α : Type} (now : Int) (c : CacheEntry α)
    (net : FetchResult α) (empty : α) : α × CacheEntry α × Bool :=
  if isCacheValid now c then (c.data.getD empty, c, false)
  else
    match net with
    | .success p => (p, ⟨some p, now⟩, true)
    | .failure => (c.data.getD empty, c, true)

/-- `getOddsForSport(sport)` on its `cache.oddsApi` slot for one sport
(`none` = key absent from the map).  `hasKey` models `ODDS_API_KEY` being
set; on failure it returns `cached?.data || []` and leaves the map alone. -/
def getOddsForSport {α : Type} (now : Int) (hasKey : Bool)
    (cached : Option (CacheEntry α)) (net : FetchResult α) (empty : α) :
    α × Option (CacheEntry α) × Bool :=
  if !hasKey then (empty, cached, false)
  else
    match cached with
    | some c =>
      if isCacheValid now c then (c.data.getD empty, cached, false)
      else
        match net with
        | .success p => (p, some ⟨some p, now⟩, true)
        | .failure => (c.data.getD empty, cached, true)
    | none =>
      match net with
      | .success p => (p, some ⟨some p, now⟩, true)
      | .failure => (empty, none, true)

/-- `getLiveScores(sport)` on its `cache.scores` slot for one sport.  Same
cache discipline as `getOddsForSport`, except that its `catch` block
`return []` ignores any cached payload. -/
def getLiveScores {α : Type} (now : Int) (hasKey : Bool)
    (cached : Option (CacheEntry α)) (net : FetchResult α) (empty : α) :
    α × Option (CacheEntry α) × Bool :=
  if !hasKey then (empty, cached, false)
  else
    match cached with
    | some c =>
      if isCacheValid now c then (c.data.getD empty, cached, false)
      else
        match net with
        | .success p => (p, some ⟨some p, now⟩, true)
        | .failure => (empty, cached, true)
    | none =>
      match net with
      | .success p => (p, some ⟨some p, now⟩, true)
      | .failure => (empty, none, true)

/-! ## Conversation history (`src/bot.js`, lines 25 and 70–77) -/

/-- One conversation entry `{ role, content }`. -/
structure ChatEntry where
  role : String
  content : String
deriving DecidableEq

/-- `const HISTORY_LIMIT = 20`. -/
def HISTORY_LIMIT : Nat := 20

/-- `addToHistory(channelId, role, content)` on one channel's buffer:
`history.push({role, content}); if (history.length > HISTORY_LIMIT) history.shift();`. -/
def addToHistory (history : List ChatEntry) (role content : String) :
    List ChatEntry :=
  if HISTORY_LIMIT < (history ++ [(⟨role, content⟩ : ChatEntry)]).length then
    (history ++ [(⟨role, content⟩ : ChatEntry)]).tail
  else history ++ [(⟨role, content⟩ : ChatEntry)]

/-! ## Odds conversion (`src/unnamed/part_000`, lines 239–243) -/

/-- `centsToAmericanOdds(cents)` for integer cent prices:
`if (!cents || cents <= 0 || cents >= 100) return null;` then
`cents >= 50 ? Math.round(-(cents / (100 - cents)) * 100)
             : Math.round(((100 - cents) / cents) * 100)`. -/
def centsToAmericanOdds (cents : Int) : Option Int :=
  if cents ≤ 0 ∨ 100 ≤ cents then none
  else if 50 ≤ cents then
    some (jsRoundDiv (-(100 * cents)) (100 - cents))
  else
    some (jsRoundDiv (100 * (100 - cents)) cents)

/-- The formula as the spec writes it, `cents>=50 ?
-round(cents/(100-cents)*100) : round((100-cents)/cents*100)`: the negation
is applied *after* rounding, unlike the source.  Kept for comparison with
`centsToAmericanOdds`. -/
def centsToAmericanOddsSpecFormula (cents : Int) : Option Int :=
  if cents ≤ 0 ∨ 100 ≤ cents then none
  else if 50 ≤ cents then
    some (-(jsRoundDiv (100 * cents) (100 - cents)))
  else
    some (jsRoundDiv (100 * (100 - cents)) cents)

/-! ## Shared lemmas -/

/-- The executable rounding `jsRoundDiv` agrees with `Math.round` on exact
rationals: for a positive denominator, `jsRoundDiv num den = ⌊num/den + 1/2⌋`. -/
theorem jsRoundDiv_eq_jsRound (num den : Int) (hd : 0 < den) :
    jsRoundDiv num den = jsRound ((num : ℚ) / (den : ℚ)) := by
  unfold jsRoundDiv jsRound
  have hden : ((den : ℚ)) ≠ 0 := Int.cast_ne_zero.mpr hd.ne'
  have h2 : (((2 * den).toNat : ℕ) : ℚ) = ((2 * den : ℤ) : ℚ) := by
    norm_cast
    omega
  have key : (num : ℚ) / (den : ℚ) + 1/2
      = ((2 * num + den : ℤ) : ℚ) / (((2 * den).toNat : ℕ) : ℚ) := by
    rw [h2]
    push_cast
    field_simp
    ring
  rw [key, Rat.floor_intCast_div_natCast]
  have h3 : ((2 * den).toNat : ℤ) = 2 * den := by omega
  rw [h3]

/-- The eviction loop of `recordPrice` drops exactly the maximal too-old
prefix. -/
theorem pruneOld_eq_dropWhile (cutoff : Int) (l : List Sample) :
    pruneOld cutoff l = l.dropWhile (fun s => decide (s.timestamp < cutoff)) := by
  induction l with
  | nil => rfl
  | cons s rest ih =>
    by_cases h : s.timestamp < cutoff
    · simp [pruneOld, List.dropWhile, h, ih]
    · simp [pruneOld, List.dropWhile, h]

/-- Inversion for `getPriceMovement`: everything a non-null result entails. -/
theorem getPriceMovement_inv (history : List Sample) (m : Movement)
    (hm : getPriceMovement history = some m) :
    2 ≤ history.length ∧
    ∃ oldest current, history.head? = some oldest ∧ history.getLast? = some current ∧
      1 ≤ jsRoundDiv (current.timestamp - oldest.timestamp) 60000 ∧
      3 ≤ (current.price - oldest.price).natAbs ∧
      m = ⟨current.price - oldest.price,
           jsRoundDiv (current.timestamp - oldest.timestamp) 60000,
           if 0 < current.price - oldest.price then "up" else "down",
           current.team⟩ := by
  unfold getPriceMovement at hm
  split at hm
  · exact absurd hm (by simp)
  next hlen =>
    split at hm
    next oldest current h1 h2 =>
      refine ⟨by omega, oldest, current, h1, h2, ?_⟩
      by_cases hmin : jsRoundDiv (current.timestamp - oldest.timestamp) 60000 < 1
      · simp [hmin] at hm
      · by_cases habs : (current.price - oldest.price).natAbs < 3
        · simp [hmin, habs] at hm
        · simp only [if_neg hmin, if_neg habs, Option.some.injEq] at hm
          exact ⟨by omega, by omega, hm.symm⟩
    next h12 => exact absurd hm (by simp)

/-- Evaluation of `getPriceMovement` on a two-sample series. -/
theorem getPriceMovement_pair (s1 s2 : Sample) :
    getPriceMovement [s1, s2] =
      (if jsRoundDiv (s2.timestamp - s1.timestamp) 60000 < 1 then none
       else if (s2.price - s1.price).natAbs < 3 then none
       else some ⟨s2.price - s1.price,
                  jsRoundDiv (s2.timestamp - s1.timestamp) 60000,
                  if 0 < s2.price - s1.price then "up" else "down",
                  s2.team⟩) := rfl

/-! ## Claims -/

/-- C1: whenever `getPriceMovement` returns a non-null result, the series
has at least 2 samples, `|newest.price - oldest.price| ≥ 3` cents, and the
result is `{ delta = newest.price - oldest.price, elapsedMinutes =
round(span/60000), direction = delta > 0 ? "up" : "down" }`; in particular
samples `{50 at t0, 54 at t0+2min}` yield `{4, 2, "up"}` while
`{50 at t0, 52 at t0+2min}` yield `null`. -/
theorem C1_movement_result_shape :
    (∀ (history : List Sample) (m : Movement), getPriceMovement history = some m →
      2 ≤ history.length ∧
      ∃ oldest current,
        history.head? = some oldest ∧ history.getLast? = some current ∧
        3 ≤ (current.price - oldest.price).natAbs ∧
        m.change = current.price - oldest.price ∧
        m.minutesAgo = jsRound (((current.timestamp - oldest.timestamp : Int) : ℚ) / 60000) ∧
        m.direction = (if 0 < m.change then "up" else "down") ∧
        m.team = current.team) ∧
    (∀ t0 : Int, getPriceMovement [⟨50, t0, "A"⟩, ⟨54, t0 + 120000, "A"⟩]
        = some ⟨4, 2, "up", "A"⟩) ∧
    (∀ t0 : Int, getPriceMovement [⟨50, t0, "A"⟩, ⟨52, t0 + 120000, "A"⟩] = none) := by
  refine ⟨?_, ?_, ?_⟩
  · intro history m hm
    obtain ⟨hlen, oldest, current, h1, h2, hmin, habs, hmeq⟩ :=
      getPriceMovement_inv history m hm
    refine ⟨hlen, oldest, current, h1, h2, habs, ?_⟩
    subst hmeq
    refine ⟨rfl, ?_, rfl, rfl⟩
    show jsRoundDiv (current.timestamp - oldest.timestamp) 60000 = _
    exact jsRoundDiv_eq_jsRound _ 60000 (by norm_num)
  · intro t0
    rw [getPriceMovement_pair]
    simp only [add_sub_cancel_left]
    norm_num [jsRoundDiv]
  · intro t0
    rw [getPriceMovement_pair]
    simp only [add_sub_cancel_left]
    norm_num [jsRoundDiv]

/-- C1 witness: the universally quantified part applied to the concrete
two-sample series `{50 at 0, 54 at 120000}`. -/
theorem C1_movement_result_shape_witness :
    2 ≤ ([⟨50, 0, "A"⟩, ⟨54, 120000, "A"⟩] : List Sample).length ∧
    ∃ oldest current,
      ([⟨50, 0, "A"⟩, ⟨54, 120000, "A"⟩] : List Sample).head? = some oldest ∧
      ([⟨50, 0, "A"⟩, ⟨54, 120000, "A"⟩] : List Sample).getLast? = some current ∧
      3 ≤ (current.price - oldest.price).natAbs ∧
      (⟨4, 2, "up", "A"⟩ : Movement).change = current.price - oldest.price ∧
      (⟨4, 2, "up", "A"⟩ : Movement).minutesAgo
        = jsRound (((current.timestamp - oldest.timestamp : Int) : ℚ) / 60000) ∧
      (⟨4, 2, "up", "A"⟩ : Movement).direction
        = (if 0 < (⟨4, 2, "up", "A"⟩ : Movement).change then "up" else "down") ∧
      (⟨4, 2, "up", "A"⟩ : Movement).team = current.team :=
  C1_movement_result_shape.1 [⟨50, 0, "A"⟩, ⟨54, 120000, "A"⟩] ⟨4, 2, "up", "A"⟩
    (by decide)

/-- C2 counterexample: two samples 59 seconds apart — a time span under one
minute — with a delta of 5 cents produce a non-null movement, because the
code compares `Math.round(span/60000)`, not the raw span, against 1 minute. -/
theorem C2_counterexample :
    ((59000 : Int) - 0 < 60000) ∧
    getPriceMovement [⟨50, 0, "A"⟩, ⟨55, 59000, "A"⟩] = some ⟨5, 1, "up", "A"⟩ :=
  ⟨by norm_num, by decide⟩

/-- C2 amended: `getPriceMovement` returns `null` whenever the time span
between the oldest and newest sample is under 30 seconds (spans of 30s or
more round up to at least one minute and can produce a non-null result). -/
theorem C2_amended_null_under_30s (history : List Sample)
    (oldest current : Sample)
    (hh : history.head? = some oldest) (hl : history.getLast? = some current)
    (hspan : current.timestamp - oldest.timestamp < 30000) :
    getPriceMovement history = none := by
  unfold getPriceMovement
  split
  · rfl
  · rw [hh, hl]
    have hlt : jsRoundDiv (current.timestamp - oldest.timestamp) 60000 < 1 := by
      unfold jsRoundDiv
      omega
    simp [hlt]

/-- C2 amended witness: samples 29 seconds apart with a large delta. -/
theorem C2_amended_null_under_30s_witness :
    getPriceMovement [⟨50, 0, "A"⟩, ⟨99, 29000, "A"⟩] = none :=
  C2_amended_null_under_30s [⟨50, 0, "A"⟩, ⟨99, 29000, "A"⟩]
    ⟨50, 0, "A"⟩ ⟨99, 29000, "A"⟩ rfl rfl (by norm_num)

/-- C3: `getPriceMovement` returns `null` whenever the series holds fewer
than 2 samples, regardless of their values; in particular after a single
`record("X", 55, "A")` on an empty tracker, `movement("X")` is `null`. -/
theorem C3_null_under_two_samples :
    (∀ history : List Sample, history.length < 2 → getPriceMovement history = none) ∧
    (∀ now : Int, movement (record emptyPriceHistory "X" now 55 "A") "X" = none) := by
  constructor
  · intro history hlen
    unfold getPriceMovement
    rw [if_pos hlen]
  · intro now
    have hrec : recordPrice now 55 "A" [] = [⟨55, now, "A"⟩] := by
      simp only [recordPrice, List.nil_append, pruneOld]
      rw [if_neg (by unfold PRICE_HISTORY_TTL; omega)]
    have hx : record emptyPriceHistory "X" now 55 "A" "X" = [⟨55, now, "A"⟩] := by
      simp only [record, emptyPriceHistory, if_pos]
      exact hrec
    unfold movement
    rw [hx]
    unfold getPriceMovement
    rw [if_pos (by simp)]

/-- C3 witness at concrete inputs. -/
theorem C3_null_under_two_samples_witness :
    getPriceMovement [⟨55, 0, "A"⟩] = none ∧
    movement (record emptyPriceHistory "X" 0 55 "A") "X" = none :=
  ⟨C3_null_under_two_samples.1 [⟨55, 0, "A"⟩] (by decide),
   C3_null_under_two_samples.2 0⟩

/-- C4: `recordPrice` appends the new sample `(price, now, team)` at the
back and then evicts from the front every entry with
`timestamp < now - PRICE_HISTORY_TTL` (retention = 10 minutes); recording at
`t = 0` and again at `t = 11 min` leaves only the second sample. -/
theorem C4_record_appends_then_evicts :
    (∀ (history : List Sample) (now price : Int) (team : String),
      recordPrice now price team history =
        (history ++ [(⟨price, now, team⟩ : Sample)]).dropWhile
          (fun s => decide (s.timestamp < now - PRICE_HISTORY_TTL))) ∧
    (∀ (p1 p2 : Int) (t1 t2 : String),
      recordPrice (11 * 60000) p2 t2 (recordPrice 0 p1 t1 []) =
        [⟨p2, 11 * 60000, t2⟩]) := by
  constructor
  · intro history now price team
    exact pruneOld_eq_dropWhile _ _
  · intro p1 p2 t1 t2
    norm_num [recordPrice, pruneOld, PRICE_HISTORY_TTL]

/-- C8: `addToHistory` keeps each channel's buffer bounded by
`HISTORY_LIMIT = 20`: the new entry is appended at the back, and when the
limit would be exceeded exactly the oldest entry is evicted; length stays
≤ 20 and the relative order of retained entries is preserved (the result is
a suffix of the appended list). -/
theorem C8_history_bounded (history : List ChatEntry) (role content : String)
    (hlen : history.length ≤ HISTORY_LIMIT) :
    (addToHistory history role content).length ≤ HISTORY_LIMIT ∧
    addToHistory history role content =
      (if history.length < HISTORY_LIMIT then history else history.tail)
        ++ [(⟨role, content⟩ : ChatEntry)] ∧
    (addToHistory history role content) <:+
      (history ++ [(⟨role, content⟩ : ChatEntry)]) := by
  have hplen : (history ++ [(⟨role, content⟩ : ChatEntry)]).length
      = history.length + 1 := by simp
  simp only [addToHistory, HISTORY_LIMIT] at hlen ⊢
  by_cases h : history.length < 20
  · rw [if_neg (by rw [hplen]; omega), if_pos h]
    exact ⟨by rw [hplen]; omega, rfl, List.suffix_refl _⟩
  · rw [if_pos (by rw [hplen]; omega), if_neg h]
    refine ⟨?_, ?_, List.tail_suffix _⟩
    · cases history with
      | nil => simp at h
      | cons a t =>
        simp only [List.cons_append, List.tail_cons, List.length_append,
          List.length_cons, List.length_singleton, List.length_nil] at hlen ⊢
        omega
    · cases history with
      | nil => simp at h
      | cons a t => simp

/-- C5 counterexample: at `cents = 68` the code computes
`Math.round(-(68/32)*100) = Math.round(-212.5) = -212`, while the spec's
formula `-round(cents/(100-cents)*100)` gives `-round(212.5) = -213`. -/
theorem C5_counterexample :
    centsToAmericanOdds 68 = some (-212) ∧
    -(jsRound ((68 : ℚ) / (100 - 68) * 100)) = -213 ∧
    centsToAmericanOdds 68 ≠ some (-(jsRound ((68 : ℚ) / (100 - 68) * 100))) := by
  have hq : ((68 : ℚ) / (100 - 68) * 100) = ((6800 : ℤ) : ℚ) / ((32 : ℤ) : ℚ) := by
    norm_num
  have h213 : jsRound ((68 : ℚ) / (100 - 68) * 100) = 213 := by
    rw [hq, ← jsRoundDiv_eq_jsRound 6800 32 (by norm_num)]
    decide
  refine ⟨by decide, by rw [h213], ?_⟩
  rw [h213]
  decide

/-- C5 amended: `centsToAmericanOdds` returns `null` for `cents ≤ 0` or
`cents ≥ 100`, and otherwise
`cents >= 50 ? round(-(cents/(100-cents))*100) : round((100-cents)/cents*100)`
with `round` = `Math.round` (half toward +∞) applied *after* the negation;
`centsToAmericanOdds(50) = -100` and `centsToAmericanOdds(25) = +300`, and
the spec's formula (negation outside `round`) agrees with the code at every
integer input except `cents = 68`. -/
theorem C5_amended_odds_conversion :
    (∀ cents : Int, (cents ≤ 0 ∨ 100 ≤ cents) → centsToAmericanOdds cents = none) ∧
    (∀ cents : Int, 0 < cents → cents < 100 →
      centsToAmericanOdds cents = some (jsRound
        (if 50 ≤ cents then -((cents : ℚ) / (100 - (cents : ℚ))) * 100
         else (100 - (cents : ℚ)) / (cents : ℚ) * 100))) ∧
    centsToAmericanOdds 50 = some (-100) ∧
    centsToAmericanOdds 25 = some 300 ∧
    (∀ cents : Int, cents ≠ 68 →
      centsToAmericanOdds cents = centsToAmericanOddsSpecFormula cents) := by
  refine ⟨?_, ?_, by decide, by decide, ?_⟩
  · intro cents hdom
    unfold centsToAmericanOdds
    rw [if_pos hdom]
  · intro cents h0 h100
    have hdom : ¬ (cents ≤ 0 ∨ 100 ≤ cents) := by omega
    have hc0 : ((cents : ℚ)) ≠ 0 := Int.cast_ne_zero.mpr (by omega)
    have hc100 : (100 - (cents : ℚ)) ≠ 0 := by
      have : (cents : ℚ) < 100 := by exact_mod_cast h100
      intro hzero
      rw [sub_eq_zero] at hzero
      exact absurd hzero.symm (ne_of_lt this)
    unfold centsToAmericanOdds
    rw [if_neg hdom]
    by_cases h50 : 50 ≤ cents
    · rw [if_pos h50, if_pos h50,
        jsRoundDiv_eq_jsRound (-(100 * cents)) (100 - cents) (by omega)]
      congr 1
      push_cast
      field_simp
      ring_nf
    · rw [if_neg h50, if_neg h50,
        jsRoundDiv_eq_jsRound (100 * (100 - cents)) cents (by omega)]
      congr 1
      push_cast
      field_simp
      ring_nf
  · intro cents hne
    by_cases hdom : cents ≤ 0 ∨ 100 ≤ cents
    · unfold centsToAmericanOdds centsToAmericanOddsSpecFormula
      rw [if_pos hdom, if_pos hdom]
    · have hmem : cents ∈ Finset.Icc (1 : ℤ) 99 := by
        rw [Finset.mem_Icc]
        omega
      exact (by decide :
        ∀ c ∈ Finset.Icc (1 : ℤ) 99, c ≠ 68 →
          centsToAmericanOdds c = centsToAmericanOddsSpecFormula c) cents hmem hne

/-- C5 amended witness at concrete inputs `0`, `68` and `30`. -/
theorem C5_amended_odds_conversion_witness :
    centsToAmericanOdds 0 = none ∧
    centsToAmericanOdds 68 = some (jsRound
      (if 50 ≤ (68 : Int) then -(((68 : Int) : ℚ) / (100 - ((68 : Int) : ℚ))) * 100
       else (100 - ((68 : Int) : ℚ)) / ((68 : Int) : ℚ) * 100)) ∧
    centsToAmericanOdds 30 = centsToAmericanOddsSpecFormula 30 :=
  ⟨C5_amended_odds_conversion.1 0 (Or.inl le_rfl),
   C5_amended_odds_conversion.2.1 68 (by norm_num) (by norm_num),
   C5_amended_odds_conversion.2.2.2.2 30 (by norm_num)⟩

/-- C9: over any sequence of `recordPrice` calls with non-decreasing
timestamps, a non-null `getPriceMovement` result always satisfies
`change ≠ 0`, `|change| ≥ 3`, `minutesAgo ≥ 1`, and `direction = "up"`
exactly when `change > 0` and `"down"` exactly when `change < 0`. -/
theorem C9_movement_invariants (ops : List (Int × Int × String)) (m : Movement)
    (hmono : List.Chain' (fun a b => a.1 ≤ b.1) ops)
    (hm : getPriceMovement (runRecords ops) = some m) :
    m.change ≠ 0 ∧ 3 ≤ m.change.natAbs ∧ 1 ≤ m.minutesAgo ∧
    (m.direction = "up" ↔ 0 < m.change) ∧
    (m.direction = "down" ↔ m.change < 0) := by
  obtain ⟨-, oldest, current, -, -, hmin, habs, hmeq⟩ :=
    getPriceMovement_inv (runRecords ops) m hm
  subst hmeq
  have hud : ("up" : String) ≠ "down" := by decide
  have hdu : ("down" : String) ≠ "up" := by decide
  dsimp only
  by_cases hpos : 0 < current.price - oldest.price
  · rw [if_pos hpos]
    exact ⟨by omega, habs, hmin, iff_of_true rfl hpos, iff_of_false hud (by omega)⟩
  · rw [if_neg hpos]
    have hneg : current.price - oldest.price < 0 := by omega
    exact ⟨by omega, habs, hmin, iff_of_false hdu (by omega), iff_of_true rfl hneg⟩

/-- C9 witness: two recorded samples two minutes apart with delta 4. -/
theorem C9_movement_invariants_witness :
    (⟨4, 2, "up", "A"⟩ : Movement).change ≠ 0 ∧
    3 ≤ (⟨4, 2, "up", "A"⟩ : Movement).change.natAbs ∧
    1 ≤ (⟨4, 2, "up", "A"⟩ : Movement).minutesAgo ∧
    ((⟨4, 2, "up", "A"⟩ : Movement).direction = "up"
      ↔ 0 < (⟨4, 2, "up", "A"⟩ : Movement).change) ∧
    ((⟨4, 2, "up", "A"⟩ : Movement).direction = "down"
      ↔ (⟨4, 2, "up", "A"⟩ : Movement).change < 0) :=
  C9_movement_invariants [(0, 50, "A"), (120000, 54, "A")] ⟨4, 2, "up", "A"⟩
    (List.Chain.cons (by norm_num) List.Chain.nil) (by decide)

/-- C8 witness at a concrete full buffer. -/
theorem C8_history_bounded_witness :
    (addToHistory (List.replicate 20 ⟨"user", "x"⟩) "assistant" "y").length ≤ HISTORY_LIMIT ∧
    addToHistory (List.replicate 20 ⟨"user", "x"⟩) "assistant" "y" =
      (if (List.replicate 20 (⟨"user", "x"⟩ : ChatEntry)).length < HISTORY_LIMIT then
        List.replicate 20 ⟨"user", "x"⟩ else (List.replicate 20 ⟨"user", "x"⟩).tail)
        ++ [⟨"assistant", "y"⟩] ∧
    (addToHistory (List.replicate 20 ⟨"user", "x"⟩) "assistant" "y") <:+
      (List.replicate 20 ⟨"user", "x"⟩ ++ [⟨"assistant", "y"⟩]) :=
  C8_history_bounded (List.replicate 20 ⟨"user", "x"⟩) "assistant" "y" (by decide)

/-- C6: a cache entry with `now - fetched_at < CACHE_TTL` is served without
a network call by every client; a resource fetched successfully and then
fetched again within the TTL window issues exactly one network call in
total, while fetching it again after TTL expiry issues a second call. -/
theorem C6_cache_freshness {α : Type} :
    (∀ (now : Int) (c : CacheEntry α) (net : FetchResult α) (empty : α),
      isCacheValid now c = true →
        getKalshiMarkets now c net empty = (c.data.getD empty, c, false) ∧
        getPolymarketEvents now c net empty = (c.data.getD empty, c, false) ∧
        getOddsForSport now true (some c) net empty
          = (c.data.getD empty, some c, false) ∧
        getLiveScores now true (some c) net empty
          = (c.data.getD empty, some c, false)) ∧
    (∀ (t0 t1 : Int) (c : CacheEntry α) (p empty : α) (net : FetchResult α),
      isCacheValid t0 c = false → t1 - t0 < CACHE_TTL →
        (getKalshiMarkets t0 c (.success p) empty).2.2 = true ∧
        (getKalshiMarkets t0 c (.success p) empty).2.1 = ⟨some p, t0⟩ ∧
        (getKalshiMarkets t1 ⟨some p, t0⟩ net empty).2.2 = false ∧
        (getKalshiMarkets t1 ⟨some p, t0⟩ net empty).1 = p) ∧
    (∀ (t0 t1 : Int) (p empty : α) (net : FetchResult α),
      CACHE_TTL ≤ t1 - t0 →
        (getKalshiMarkets t1 ⟨some p, t0⟩ net empty).2.2 = true) := by
  refine ⟨?_, ?_, ?_⟩
  · intro now c net empty hvalid
    refine ⟨?_, ?_, ?_, ?_⟩ <;>
      simp [getKalshiMarkets, getPolymarketEvents, getOddsForSport,
        getLiveScores, hvalid]
  · intro t0 t1 c p empty net hstale hfresh
    have hvalid1 : isCacheValid t1 (⟨some p, t0⟩ : CacheEntry α) = true := by
      simp [isCacheValid, hfresh]
    refine ⟨?_, ?_, ?_, ?_⟩ <;>
      simp [getKalshiMarkets, hstale, hvalid1]
  · intro t0 t1 p empty net hexpired
    have hstale1 : isCacheValid t1 (⟨some p, t0⟩ : CacheEntry α) = false := by
      simp [isCacheValid]
      omega
    cases net <;> simp [getKalshiMarkets, hstale1]

/-- C6 witness: concrete cold-cache fetch at `t = 0`, refetch at `t = 5000`
(within TTL) and at `t = 40000` (after TTL expiry), payload type `ℕ`. -/
theorem C6_cache_freshness_witness :
    (getKalshiMarkets 10 (⟨some 5, 0⟩ : CacheEntry ℕ) FetchResult.failure 0
        = ((⟨some 5, 0⟩ : CacheEntry ℕ).data.getD 0, ⟨some 5, 0⟩, false) ∧
      getPolymarketEvents 10 (⟨some 5, 0⟩ : CacheEntry ℕ) FetchResult.failure 0
        = ((⟨some 5, 0⟩ : CacheEntry ℕ).data.getD 0, ⟨some 5, 0⟩, false) ∧
      getOddsForSport 10 true (some (⟨some 5, 0⟩ : CacheEntry ℕ))
          FetchResult.failure 0
        = ((⟨some 5, 0⟩ : CacheEntry ℕ).data.getD 0, some ⟨some 5, 0⟩, false) ∧
      getLiveScores 10 true (some (⟨some 5, 0⟩ : CacheEntry ℕ))
          FetchResult.failure 0
        = ((⟨some 5, 0⟩ : CacheEntry ℕ).data.getD 0, some ⟨some 5, 0⟩, false)) ∧
    ((getKalshiMarkets 0 (⟨none, 0⟩ : CacheEntry ℕ) (FetchResult.success 7) 0).2.2
        = true ∧
      (getKalshiMarkets 0 (⟨none, 0⟩ : CacheEntry ℕ) (FetchResult.success 7) 0).2.1
        = ⟨some 7, 0⟩ ∧
      (getKalshiMarkets 5000 (⟨some 7, 0⟩ : CacheEntry ℕ) FetchResult.failure 0).2.2
        = false ∧
      (getKalshiMarkets 5000 (⟨some 7, 0⟩ : CacheEntry ℕ) FetchResult.failure 0).1
        = 7) ∧
    (getKalshiMarkets 40000 (⟨some 7, 0⟩ : CacheEntry ℕ)
        (FetchResult.success 9) 0).2.2 = true :=
  ⟨C6_cache_freshness.1 10 ⟨some 5, 0⟩ FetchResult.failure 0 (by decide),
   C6_cache_freshness.2.1 0 5000 ⟨none, 0⟩ 7 0 FetchResult.failure (by decide)
     (by decide),
   C6_cache_freshness.2.2 0 40000 7 0 (FetchResult.success 9) (by decide)⟩

/-- C7 counterexample: `getLiveScores` with a stale cache entry holding
payload `7` and a failing request issues the network call but returns the
empty collection `0`, not the previous cached payload — contradicting the
claim for the scores client. -/
theorem C7_counterexample :
    isCacheValid 30000 (⟨some 7, 0⟩ : CacheEntry ℕ) = false ∧
    getLiveScores 30000 true (some (⟨some 7, 0⟩ : CacheEntry ℕ))
        FetchResult.failure 0
      = (0, some ⟨some 7, 0⟩, true) ∧
    (0 : ℕ) ≠ 7 := by decide

/-- C7 amended: for the Kalshi, Polymarket and odds-API clients, a fetch
with an absent or stale cache entry issues one HTTP GET; on success the
cache entry is replaced and the new payload returned; on failure the
previous cached payload is returned if one exists, else the empty
collection, and the cache is left alone — the error is never raised (the
step functions are total).  The scores client instead returns the empty
collection on every failure, even when a cached payload exists. -/
theorem C7_amended_fetch_error_handling {α : Type} :
    (∀ (now : Int) (c : CacheEntry α) (p empty : α),
      isCacheValid now c = false →
        getKalshiMarkets now c (.success p) empty = (p, ⟨some p, now⟩, true) ∧
        getKalshiMarkets now c .failure empty = (c.data.getD empty, c, true) ∧
        getPolymarketEvents now c (.success p) empty = (p, ⟨some p, now⟩, true) ∧
        getPolymarketEvents now c .failure empty
          = (c.data.getD empty, c, true)) ∧
    (∀ (now : Int) (cached : Option (CacheEntry α)) (p empty : α),
      (∀ c, cached = some c → isCacheValid now c = false) →
        getOddsForSport now true cached (.success p) empty
          = (p, some ⟨some p, now⟩, true) ∧
        getOddsForSport now true cached .failure empty
          = ((cached.bind fun c => c.data).getD empty, cached, true)) ∧
    (∀ (now : Int) (c : CacheEntry α) (empty : α),
      isCacheValid now c = false →
        getLiveScores now true (some c) .failure empty = (empty, some c, true)) := by
  refine ⟨?_, ?_, ?_⟩
  · intro now c p empty hstale
    refine ⟨?_, ?_, ?_, ?_⟩ <;>
      simp [getKalshiMarkets, getPolymarketEvents, hstale]
  · intro now cached p empty hstale
    cases cached with
    | none => exact ⟨rfl, rfl⟩
    | some c =>
      have hc := hstale c rfl
      refine ⟨?_, ?_⟩ <;> simp [getOddsForSport, hc]
  · intro now c empty hstale
    simp [getLiveScores, hstale]

/-- C7 amended witness: concrete stale-cache success and failure fetches,
payload type `ℕ`. -/
theorem C7_amended_fetch_error_handling_witness :
    (getKalshiMarkets 40000 (⟨some 3, 0⟩ : CacheEntry ℕ) (FetchResult.success 8) 0
        = (8, ⟨some 8, 40000⟩, true) ∧
      getKalshiMarkets 40000 (⟨some 3, 0⟩ : CacheEntry ℕ) FetchResult.failure 0
        = ((⟨some 3, 0⟩ : CacheEntry ℕ).data.getD 0, ⟨some 3, 0⟩, true) ∧
      getPolymarketEvents 40000 (⟨some 3, 0⟩ : CacheEntry ℕ) (FetchResult.success 8) 0
        = (8, ⟨some 8, 40000⟩, true) ∧
      getPolymarketEvents 40000 (⟨some 3, 0⟩ : CacheEntry ℕ) FetchResult.failure 0
        = ((⟨some 3, 0⟩ : CacheEntry ℕ).data.getD 0, ⟨some 3, 0⟩, true)) ∧
    (getOddsForSport 40000 true (some (⟨some 3, 0⟩ : CacheEntry ℕ))
          (FetchResult.success 8) 0
        = (8, some ⟨some 8, 40000⟩, true) ∧
      getOddsForSport 40000 true (some (⟨some 3, 0⟩ : CacheEntry ℕ))
          FetchResult.failure 0
        = (((some (⟨some 3, 0⟩ : CacheEntry ℕ)).bind fun c => c.data).getD 0,
           some ⟨some 3, 0⟩, true)) ∧
    getLiveScores 40000 true (some (⟨some 3, 0⟩ : CacheEntry ℕ))
        FetchResult.failure 0
      = (0, some ⟨some 3, 0⟩, true) :=
  ⟨C7_amended_fetch_error_handling.1 40000 ⟨some 3, 0⟩ 8 0 (by decide),
   C7_amended_fetch_error_handling.2.1 40000 (some ⟨some 3, 0⟩) 8 0
     (fun c hc => by cases hc; decide),
   C7_amended_fetch_error_handling.2.2 40000 ⟨some 3, 0⟩ 0 (by decide)⟩

/-- C10: when the HTTP request fails, every client (Kalshi markets,
Polymarket events, odds-API, scores) leaves its cache slot completely
unchanged — neither payload nor timestamp is modified on the error path. -/
theorem C10_failure_preserves_cache {α : Type} :
    ∀ (now : Int) (c : CacheEntry α) (cached : Option (CacheEntry α))
      (empty : α) (hasKey : Bool),
      (getKalshiMarkets now c .failure empty).2.1 = c ∧
      (getPolymarketEvents now c .failure empty).2.1 = c ∧
      (getOddsForSport now hasKey cached .failure empty).2.1 = cached ∧
      (getLiveScores now hasKey cached .failure empty).2.1 = cached := by
  intro now c cached empty hasKey
  refine ⟨?_, ?_, ?_, ?_⟩
  · simp only [getKalshiMarkets]
    split <;> rfl
  · simp only [getPolymarketEvents]
    split <;> rfl
  · cases hasKey with
    | false => rfl
    | true =>
      cases cached with
      | none => rfl
      | some c2 =>
        simp only [getOddsForSport]
        split <;> first | rfl | (split <;> rfl)
  · cases hasKey with
    | false => rfl
    | true =>
      cases cached with
      | none => rfl
      | some c2 =>
        simp only [getLiveScores]
        split <;> first | rfl | (split <;> rfl)

end DiscordBot
